import Mathlib

/-!
Verification of `lib/express-rate-limit.js` (express-rate-limit v3 core).

The middleware body is embedded as a pure function producing the ordered
list of observable effects it performs for one request, given the outcome
of each suspension point (skip predicate, key resolution, store increment,
threshold resolution).  JavaScript numeric oddities that the code can hit
(`undefined - n` being `NaN`, `Math.max(NaN, 0)` being `NaN`, falsiness of
`0`/`NaN`/`undefined`) are modelled by the `JVal` type.  The
skip-accounting completion handlers (`finish`/`close`/`error` listeners)
are embedded as a state machine over the per-request `decremented` latch.
-/

/-- A JavaScript numeric value as it can appear in this code: an actual
number, `NaN`, or `undefined` (the value the resolved-threshold variable
takes when the threshold promise was rejected and `.catch(next)` already
consumed the error). -/
inductive JVal where
  | num (n : Int)
  | nan
  | undef
  deriving DecidableEq, Repr

/-- JavaScript truthiness of a `JVal`: `0`, `NaN` and `undefined` are
falsy, every other number is truthy (mirrors the `if (max && ...)`
guards). -/
def truthy : JVal → Bool
  | JVal.num n => n != 0
  | JVal.nan => false
  | JVal.undef => false

/-- JavaScript subtraction `max - current` where `max` may be `NaN` or
`undefined`: any non-number operand yields `NaN`. -/
def jsub (max : JVal) (current : Nat) : JVal :=
  match max with
  | JVal.num m => JVal.num (m - (current : Int))
  | JVal.nan => JVal.nan
  | JVal.undef => JVal.nan

/-- `Math.max(x, 0)`: `NaN` propagates (and `undefined` coerces to
`NaN`). -/
def jmax0 : JVal → JVal
  | JVal.num n => JVal.num (max n 0)
  | JVal.nan => JVal.nan
  | JVal.undef => JVal.nan

/-- The JavaScript comparison `current === max + 1` from line 136:
false whenever `max` is not a number. -/
def jeqSucc (max : JVal) (current : Nat) : Bool :=
  match max with
  | JVal.num m => decide ((current : Int) = m + 1)
  | JVal.nan => false
  | JVal.undef => false

/-- The JavaScript comparison `current > max` from line 140: false
whenever `max` is not a number. -/
def jgt (current : Nat) (max : JVal) : Bool :=
  match max with
  | JVal.num m => decide (m < (current : Int))
  | JVal.nan => false
  | JVal.undef => false

/-- A value written into a response header: either a JavaScript number
(possibly `NaN`/`undefined`) or the `new Date().toGMTString()` string. -/
inductive HVal where
  | jv (v : JVal)
  | dateString
  deriving DecidableEq, Repr

/-- `req.rateLimit`, the verdict object from lines 79-84. -/
structure Verdict where
  limit : JVal
  current : Nat
  remaining : JVal
  resetTime : Option Nat
  deriving DecidableEq, Repr

/-- The verdict the code builds: `remaining = Math.max(max - current, 0)`. -/
def verdictOf (max : JVal) (current : Nat) (resetTime : Option Nat) : Verdict :=
  Verdict.mk max current (jmax0 (jsub max current)) resetTime

/-- The configuration fields the middleware body reads (the threshold is a
per-request resolution outcome and is passed separately). -/
structure Options where
  windowMs : Nat
  headers : Bool
  skipFailedRequests : Bool
  skipSuccessfulRequests : Bool
  deriving DecidableEq, Repr

/-- One observable effect of the middleware on a request. -/
inductive Effect where
  | incr (key : String)
  | nextErr
  | throwOut
  | attachVerdict (v : Verdict)
  | setHeader (name : String) (value : HVal)
  | registerSkip
  | limitReached
  | callHandler
  | next
  deriving DecidableEq, Repr

/-- The body of the `.then(max => ...)` callback (lines 79-151), given the
value the `max` binder received.  Effects appear in source order: attach
the verdict, emit the informational headers, register the skip-accounting
listeners, fire `onLimitReached` on the edge, then either emit
`Retry-After` and call the block handler, or call `next()`. -/
def thenBody (o : Options) (headersSent : Bool) (current : Nat)
    (resetTime : Option Nat) (max : JVal) : List Effect :=
  Effect.attachVerdict (verdictOf max current resetTime) ::
    ((if o.headers && !headersSent then
        Effect.setHeader "X-RateLimit-Limit" (HVal.jv max) ::
          Effect.setHeader "X-RateLimit-Remaining"
            (HVal.jv (jmax0 (jsub max current))) ::
          (match resetTime with
           | some t =>
               [Effect.setHeader "Date" HVal.dateString,
                Effect.setHeader "X-RateLimit-Reset"
                  (HVal.jv (JVal.num ((t + 999) / 1000)))]
           | none => [])
      else [])
    ++ (if o.skipFailedRequests || o.skipSuccessfulRequests then
          [Effect.registerSkip]
        else [])
    ++ (if truthy max && jeqSucc max current then [Effect.limitReached] else [])
    ++ (if truthy max && jgt current max then
          (if o.headers && !headersSent then
             [Effect.setHeader "Retry-After"
               (HVal.jv (JVal.num ((o.windowMs + 999) / 1000)))]
           else [])
          ++ [Effect.callHandler]
        else [Effect.next]))

/-- Lines 71-78: `Promise.resolve(maxResult).catch(next).then(max => ...)`.
On a rejected threshold the `.catch` calls `next(err)` and resolves to
`undefined`, after which the `.then` callback still runs with
`max = undefined`. -/
def afterIncr (o : Options) (headersSent : Bool) (current : Nat)
    (resetTime : Option Nat) (maxOutcome : Except Unit Int) : List Effect :=
  match maxOutcome with
  | Except.error _ => Effect.nextErr :: thenBody o headersSent current resetTime JVal.undef
  | Except.ok m => thenBody o headersSent current resetTime (JVal.num m)

/-- Outcome of `options.keyGenerator(req, res)` (lines 58-62): a plain
string, a synchronous throw, a promise resolving to a string, or a
rejected promise. -/
inductive KeyOutcome where
  | syncVal (key : String)
  | syncThrow
  | asyncVal (key : String)
  | asyncErr
  deriving DecidableEq, Repr

/-- Outcome of `options.store.incr(key, cb)` (line 66). -/
inductive IncrOutcome where
  | ok (current : Nat) (resetTime : Option Nat)
  | err
  deriving DecidableEq, Repr

/-- The full middleware body `rateLimit(req, res, next)` (lines 53-155) as
an effect trace.  A synchronous throw from the key generator escapes the
function (nothing catches it); a rejected key promise reaches the final
`.catch(err => next(err))` without any increment. -/
def rateLimitTrace (o : Options) (skipResult : Bool) (keyOut : KeyOutcome)
    (incrOut : IncrOutcome) (headersSent : Bool)
    (maxOutcome : Except Unit Int) : List Effect :=
  if skipResult then [Effect.next]
  else
    match keyOut with
    | KeyOutcome.syncThrow => [Effect.throwOut]
    | KeyOutcome.syncVal k =>
        Effect.incr k ::
          (match incrOut with
           | IncrOutcome.err => [Effect.nextErr]
           | IncrOutcome.ok current resetTime =>
               afterIncr o headersSent current resetTime maxOutcome)
    | KeyOutcome.asyncVal k =>
        Effect.incr k ::
          (match incrOut with
           | IncrOutcome.err => [Effect.nextErr]
           | IncrOutcome.ok current resetTime =>
               afterIncr o headersSent current resetTime maxOutcome)
    | KeyOutcome.asyncErr => [Effect.nextErr]

/-- Which methods an injected store object actually provides. -/
structure StoreShape where
  hasIncr : Bool
  hasResetKey : Bool
  hasDecrement : Bool
  deriving DecidableEq, Repr

/-- The store validation of lines 35-42: construction throws exactly when
this is `false`.  Note the `decrement` check is guarded only by
`skipFailedRequests`. -/
def storeIsValid (s : StoreShape) (skipFailedRequests : Bool)
    (skipSuccessfulRequests : Bool) : Bool :=
  s.hasIncr && s.hasResetKey && (!skipFailedRequests || s.hasDecrement)

/-- A completion signal observed on the response object. -/
inductive Signal where
  | finish (statusCode : Nat)
  | close (finished : Bool)
  | error
  deriving DecidableEq, Repr

/-- Per-request skip-accounting state: the `decremented` latch and the
number of `store.decrement(key)` calls issued so far. -/
structure SkipState where
  decremented : Bool
  decrements : Nat
  deriving DecidableEq, Repr

/-- `decrementKey` (lines 104-109): decrement only if the latch is not yet
set, then set it. -/
def decrementKey (st : SkipState) : SkipState :=
  if st.decremented then st else SkipState.mk true (st.decrements + 1)

/-- Runs every listener registered for one signal, in registration order
(lines 111-133).  The `skipFailedRequests` listeners go through
`decrementKey`; the `skipSuccessfulRequests` finish listener calls
`options.store.decrement(key)` directly, bypassing the latch. -/
def handleSignal (o : Options) (st : SkipState) (s : Signal) : SkipState :=
  match s with
  | Signal.finish status =>
      let st1 := if o.skipFailedRequests && decide (400 ≤ status) then
        decrementKey st else st
      if o.skipSuccessfulRequests && decide (status < 400) then
        SkipState.mk st1.decremented (st1.decrements + 1)
      else st1
  | Signal.close finished =>
      if o.skipFailedRequests && !finished then decrementKey st else st
  | Signal.error =>
      if o.skipFailedRequests then decrementKey st else st

/-- Total skip-accounting behaviour over a sequence of completion
signals, starting from the fresh `decremented = false` state. -/
def runSignals (o : Options) (signals : List Signal) : SkipState :=
  signals.foldl (handleSignal o) (SkipState.mk false 0)

/-- Default-ish options used for concrete witnesses: one minute window,
headers on, no skip accounting. -/
def oDflt : Options := Options.mk 60000 true false false

/-- Modelled from the spec: the "remaining window duration (rounded up to
whole seconds)" that §4.4/§8 say `Retry-After` carries, computed from the
window-reset timestamp and the current time (both in ms).  The source
never computes this quantity; it is defined here only to compare the
spec's words with what the code emits. -/
def specRemainingWindowSeconds (resetTimeMs nowMs : Nat) : Nat :=
  (resetTimeMs - nowMs + 999) / 1000

theorem mem_thenBody_callHandler (o : Options) (hs : Bool) (c : Nat)
    (rt : Option Nat) (m : JVal) :
    Effect.callHandler ∈ thenBody o hs c rt m ↔ (truthy m && jgt c m) = true := by
  unfold thenBody
  rcases rt with _ | t <;>
    by_cases h1 : (o.headers && !hs) = true <;>
    by_cases h2 : (o.skipFailedRequests || o.skipSuccessfulRequests) = true <;>
    by_cases h3 : (truthy m && jeqSucc m c) = true <;>
    by_cases h4 : (truthy m && jgt c m) = true <;>
    simp [h1, h2, h3, h4]

theorem mem_thenBody_next (o : Options) (hs : Bool) (c : Nat)
    (rt : Option Nat) (m : JVal) :
    Effect.next ∈ thenBody o hs c rt m ↔ (truthy m && jgt c m) = false := by
  unfold thenBody
  rcases rt with _ | t <;>
    by_cases h1 : (o.headers && !hs) = true <;>
    by_cases h2 : (o.skipFailedRequests || o.skipSuccessfulRequests) = true <;>
    by_cases h3 : (truthy m && jeqSucc m c) = true <;>
    by_cases h4 : (truthy m && jgt c m) = true <;>
    simp [h1, h2, h3, h4]

theorem mem_thenBody_limitReached (o : Options) (hs : Bool) (c : Nat)
    (rt : Option Nat) (m : JVal) :
    Effect.limitReached ∈ thenBody o hs c rt m ↔
      (truthy m && jeqSucc m c) = true := by
  unfold thenBody
  rcases rt with _ | t <;>
    by_cases h1 : (o.headers && !hs) = true <;>
    by_cases h2 : (o.skipFailedRequests || o.skipSuccessfulRequests) = true <;>
    by_cases h3 : (truthy m && jeqSucc m c) = true <;>
    by_cases h4 : (truthy m && jgt c m) = true <;>
    simp [h1, h2, h3, h4]

theorem mem_thenBody_retryAfter (o : Options) (hs : Bool) (c : Nat)
    (rt : Option Nat) (m : JVal) (hv : HVal) :
    Effect.setHeader "Retry-After" hv ∈ thenBody o hs c rt m ↔
      ((truthy m && jgt c m) && (o.headers && !hs)) = true ∧
        hv = HVal.jv (JVal.num ((o.windowMs + 999) / 1000)) := by
  unfold thenBody
  rcases rt with _ | t <;>
    by_cases h1 : (o.headers && !hs) = true <;>
    by_cases h2 : (o.skipFailedRequests || o.skipSuccessfulRequests) = true <;>
    by_cases h3 : (truthy m && jeqSucc m c) = true <;>
    by_cases h4 : (truthy m && jgt c m) = true <;>
    simp [h1, h2, h3, h4, String.ext_iff]

theorem mem_thenBody_attachVerdict (o : Options) (hs : Bool) (c : Nat)
    (rt : Option Nat) (m : JVal) (v : Verdict) :
    Effect.attachVerdict v ∈ thenBody o hs c rt m ↔ v = verdictOf m c rt := by
  unfold thenBody
  rcases rt with _ | t <;>
    by_cases h1 : (o.headers && !hs) = true <;>
    by_cases h2 : (o.skipFailedRequests || o.skipSuccessfulRequests) = true <;>
    by_cases h3 : (truthy m && jeqSucc m c) = true <;>
    by_cases h4 : (truthy m && jgt c m) = true <;>
    simp [h1, h2, h3, h4]

/-- Whether `onLimitReached` fires for a request that observed
post-increment count `current`, read off the effect trace. -/
def limitReachedFires (o : Options) (hs : Bool) (rt : Option Nat)
    (maxOutcome : Except Unit Int) (current : Nat) : Bool :=
  decide (Effect.limitReached ∈ afterIncr o hs current rt maxOutcome)

/-- Number of requests among post-increment counts `1..n` (one fixed key,
one window, no decrements) whose trace fires the notification. -/
def windowFireCount (o : Options) (hs : Bool) (rt : Option Nat)
    (T : Nat) (n : Nat) : Nat :=
  ((List.range n).map (fun i => i + 1)).countP
    (limitReachedFires o hs rt (Except.ok (T : Int)))

theorem limitReachedFires_ok (o : Options) (hs : Bool) (rt : Option Nat)
    (T : Nat) (hT : 1 ≤ T) (c : Nat) :
    limitReachedFires o hs rt (Except.ok (T : Int)) c = decide (c = T + 1) := by
  have hiff : Effect.limitReached ∈ thenBody o hs c rt (JVal.num (T : Int)) ↔
      c = T + 1 := by
    rw [mem_thenBody_limitReached o hs c rt (JVal.num (T : Int))]
    simp [truthy, jeqSucc]
    omega
  simp [limitReachedFires, afterIncr, hiff]

theorem windowFireCount_eq (o : Options) (hs : Bool) (rt : Option Nat)
    (T : Nat) (hT : 1 ≤ T) (n : Nat) :
    windowFireCount o hs rt T n = if T + 1 ≤ n then 1 else 0 := by
  induction n with
  | zero => simp [windowFireCount]
  | succ n ih =>
      unfold windowFireCount at ih ⊢
      rw [List.range_succ, List.map_append, List.countP_append, ih]
      simp only [List.map_cons, List.map_nil, List.countP_cons, List.countP_nil]
      rw [limitReachedFires_ok o hs rt T hT (n + 1)]
      simp only [decide_eq_true_eq]
      split_ifs <;> omega

/-- C1: for a request past the skip predicate with positive resolved
threshold `T`, a post-increment count `≤ T` leads to `next()` and never
the block handler, while a count `> T` invokes the block handler and
never `next()`. -/
theorem c1_allow_or_block (o : Options) (hs : Bool) (c : Nat)
    (rt : Option Nat) (T : Int) (hT : 0 < T) :
    ((c : Int) ≤ T →
      Effect.next ∈ afterIncr o hs c rt (Except.ok T) ∧
      Effect.callHandler ∉ afterIncr o hs c rt (Except.ok T)) ∧
    (T < (c : Int) →
      Effect.callHandler ∈ afterIncr o hs c rt (Except.ok T) ∧
      Effect.next ∉ afterIncr o hs c rt (Except.ok T)) := by
  simp only [afterIncr]
  have hbiff : (truthy (JVal.num T) && jgt c (JVal.num T)) = true ↔
      T < (c : Int) := by
    simp [truthy, jgt]
    omega
  constructor
  · intro hle
    have hb0 : (truthy (JVal.num T) && jgt c (JVal.num T)) = false := by
      rw [Bool.eq_false_iff]
      intro hbt
      exact absurd (hbiff.mp hbt) (by omega)
    refine ⟨(mem_thenBody_next o hs c rt (JVal.num T)).mpr hb0, ?_⟩
    intro hmem
    have hcb := (mem_thenBody_callHandler o hs c rt (JVal.num T)).mp hmem
    rw [hb0] at hcb
    exact Bool.false_ne_true hcb
  · intro hlt
    have hb1 : (truthy (JVal.num T) && jgt c (JVal.num T)) = true :=
      hbiff.mpr hlt
    refine ⟨(mem_thenBody_callHandler o hs c rt (JVal.num T)).mpr hb1, ?_⟩
    intro hmem
    have hnx := (mem_thenBody_next o hs c rt (JVal.num T)).mp hmem
    rw [hb1] at hnx
    exact Bool.noConfusion hnx

theorem c1_allow_or_block_witness :
    (Effect.next ∈ afterIncr oDflt false 3 none (Except.ok 5) ∧
      Effect.callHandler ∉ afterIncr oDflt false 3 none (Except.ok 5)) ∧
    (Effect.callHandler ∈ afterIncr oDflt false 6 none (Except.ok 5) ∧
      Effect.next ∉ afterIncr oDflt false 6 none (Except.ok 5)) :=
  ⟨(c1_allow_or_block oDflt false 3 none 5 (by decide)).1 (by decide),
   (c1_allow_or_block oDflt false 6 none 5 (by decide)).2 (by decide)⟩

/-- C2: every verdict attached with a resolved threshold `m` has
`remaining = max(m - current, 0)`, and any numeric `remaining` is
non-negative. -/
theorem c2_remaining_clamped (o : Options) (hs : Bool) (c : Nat)
    (rt : Option Nat) (m : Int) (v : Verdict)
    (h : Effect.attachVerdict v ∈ afterIncr o hs c rt (Except.ok m)) :
    v.remaining = JVal.num (max (m - (c : Int)) 0) ∧
      ∀ r : Int, v.remaining = JVal.num r → 0 ≤ r := by
  have hv := (mem_thenBody_attachVerdict o hs c rt (JVal.num m) v).mp
    (by simpa [afterIncr] using h)
  subst hv
  constructor
  · simp [verdictOf, jmax0, jsub]
  · intro r hr
    simp [verdictOf, jmax0, jsub] at hr
    omega

theorem c2_remaining_clamped_witness :
    (verdictOf (JVal.num 5) 7 none).remaining =
      JVal.num (max ((5 : Int) - (7 : Nat)) 0) :=
  (c2_remaining_clamped oDflt false 7 none 5 (verdictOf (JVal.num 5) 7 none)
    (by decide)).1

/-- C6: with positive threshold `T`, a request's trace fires
`onLimitReached` exactly when its post-increment count is `T + 1`, and
over a window of counts `1..n` the notification fires exactly once when
the threshold was crossed and never otherwise. -/
theorem c6_edge_triggered_once (o : Options) (hs : Bool) (rt : Option Nat)
    (T : Nat) (hT : 1 ≤ T) :
    (∀ c : Nat,
        Effect.limitReached ∈ afterIncr o hs c rt (Except.ok (T : Int)) ↔
          c = T + 1) ∧
    (∀ n : Nat, windowFireCount o hs rt T n = if T + 1 ≤ n then 1 else 0) := by
  constructor
  · intro c
    have h := limitReachedFires_ok o hs rt T hT c
    constructor
    · intro hmem
      have hf : limitReachedFires o hs rt (Except.ok (T : Int)) c = true := by
        simp [limitReachedFires, hmem]
      rw [h] at hf
      simpa using hf
    · intro hc
      have hf : limitReachedFires o hs rt (Except.ok (T : Int)) c = true := by
        rw [h]
        simp [hc]
      simpa [limitReachedFires] using hf
  · exact windowFireCount_eq o hs rt T hT

theorem c6_edge_triggered_once_witness :
    Effect.limitReached ∈ afterIncr oDflt false 6 none (Except.ok ((5 : Nat) : Int)) ∧
    windowFireCount oDflt false none 5 8 = if 5 + 1 ≤ 8 then 1 else 0 :=
  ⟨((c6_edge_triggered_once oDflt false none 5 (by decide)).1 6).mpr rfl,
   (c6_edge_triggered_once oDflt false none 5 (by decide)).2 8⟩

/-- C8: a threshold resolving to `0` (falsy) disables limiting: the trace
calls `next()`, never the block handler, never `onLimitReached`, and
emits no `Retry-After` header. -/
theorem c8_zero_threshold_unlimited (o : Options) (hs : Bool) (c : Nat)
    (rt : Option Nat) :
    Effect.next ∈ afterIncr o hs c rt (Except.ok 0) ∧
    Effect.callHandler ∉ afterIncr o hs c rt (Except.ok 0) ∧
    Effect.limitReached ∉ afterIncr o hs c rt (Except.ok 0) ∧
    ∀ hv : HVal,
      Effect.setHeader "Retry-After" hv ∉ afterIncr o hs c rt (Except.ok 0) := by
  simp only [afterIncr]
  have hb : (truthy (JVal.num 0) && jgt c (JVal.num 0)) = false := by
    simp [truthy]
  have he : (truthy (JVal.num 0) && jeqSucc (JVal.num 0) c) = false := by
    simp [truthy]
  refine ⟨(mem_thenBody_next o hs c rt (JVal.num 0)).mpr hb, ?_, ?_, ?_⟩
  · intro hmem
    have hcb := (mem_thenBody_callHandler o hs c rt (JVal.num 0)).mp hmem
    rw [hb] at hcb
    exact Bool.noConfusion hcb
  · intro hmem
    have hlr := (mem_thenBody_limitReached o hs c rt (JVal.num 0)).mp hmem
    rw [he] at hlr
    exact Bool.noConfusion hlr
  · intro hv hmem
    have hra := ((mem_thenBody_retryAfter o hs c rt (JVal.num 0) hv).mp hmem).1
    rw [hb] at hra
    exact Bool.noConfusion hra

/-- C10: on a successful increment and threshold resolution, the very
first effect is attaching the fresh verdict object — before any header
and before the allow/block decision, whatever the options and however the
request is ultimately decided — and no other verdict is ever attached. -/
theorem c10_verdict_attached_first (o : Options) (hs : Bool) (c : Nat)
    (rt : Option Nat) (m : Int) :
    ∃ t : List Effect,
      afterIncr o hs c rt (Except.ok m) =
        Effect.attachVerdict (verdictOf (JVal.num m) c rt) :: t ∧
      ∀ v : Verdict, Effect.attachVerdict v ∉ t := by
  simp only [afterIncr]
  unfold thenBody
  refine ⟨_, rfl, ?_⟩
  intro v hv
  rcases rt with _ | tt <;>
    by_cases h1 : (o.headers && !hs) = true <;>
    by_cases h2 : (o.skipFailedRequests || o.skipSuccessfulRequests) = true <;>
    by_cases h3 : (truthy (JVal.num m) && jeqSucc (JVal.num m) c) = true <;>
    by_cases h4 : (truthy (JVal.num m) && jgt c (JVal.num m)) = true <;>
    simp [h1, h2, h3, h4] at hv

/-- C3: evaluating the skip-accounting listeners at a concrete signal
sequence.  With both skip modes enabled, an `error` signal (latched
decrement as failed) followed by a `finish` with status 200 issues a
second `store.decrement` call: the successful-finish listener (line 130)
calls the store directly and bypasses the shared `decremented` latch. -/
theorem c3_latch_bypassed_two_decrements :
    (runSignals (Options.mk 60000 true true true)
        [Signal.error, Signal.finish 200]).decrements = 2 ∧
    (runSignals (Options.mk 60000 true true true)
        [Signal.error, Signal.finish 200]).decremented = true := by
  decide

/-- C4: evaluating the store validation (lines 35-42) at the failing
configuration.  A store providing `incr` and `resetKey` but no
`decrement` passes validation when only `skipSuccessfulRequests` is
enabled — no error is thrown — yet the finish listener that the returned
middleware registers then issues a `decrement` call on that store. -/
theorem c4_validation_misses_skip_successful :
    storeIsValid (StoreShape.mk true true false) false true = true ∧
    (runSignals (Options.mk 60000 true false true)
        [Signal.finish 200]).decrements = 1 := by
  decide

/-- C5: evaluating the trace when the threshold promise rejects.  The
`.catch(next)` placed before `.then` propagates the error via
`next(err)` but resolves the chain, so the `.then` callback still runs
with `max = undefined`: the verdict is attached (limit `undefined`,
remaining `NaN`), the informational headers are emitted, and `next()` is
called a second time — the request proceeds. -/
theorem c5_continues_after_threshold_error :
    afterIncr oDflt false 1 (some 60000) (Except.error ()) =
      [Effect.nextErr,
       Effect.attachVerdict (Verdict.mk JVal.undef 1 JVal.nan (some 60000)),
       Effect.setHeader "X-RateLimit-Limit" (HVal.jv JVal.undef),
       Effect.setHeader "X-RateLimit-Remaining" (HVal.jv JVal.nan),
       Effect.setHeader "Date" HVal.dateString,
       Effect.setHeader "X-RateLimit-Reset" (HVal.jv (JVal.num 60)),
       Effect.next] := by
  decide

/-- C7 counterexample: a blocked request arriving 1 ms before the end of
a 60 s window.  The remaining window duration rounded up (the value the
claim says `Retry-After` carries) is 1 s, but the trace emits 60 s — the
code uses the full configured window, never the remaining time. -/
theorem c7_counterexample_full_window :
    specRemainingWindowSeconds 60000 59999 = 1 ∧
    Effect.setHeader "Retry-After" (HVal.jv (JVal.num 60))
      ∈ afterIncr oDflt false 6 (some 60000) (Except.ok 5) ∧
    Effect.setHeader "Retry-After"
        (HVal.jv (JVal.num (specRemainingWindowSeconds 60000 59999)))
      ∉ afterIncr oDflt false 6 (some 60000) (Except.ok 5) := by
  decide

/-- C7 amended: for every blocked request (positive threshold, count over
it) with headers enabled and not already sent, `Retry-After` is set to
the full configured window duration rounded up to whole seconds,
`⌈windowMs / 1000⌉`; that value is positive whenever `windowMs` is, and
it is the only value ever written to `Retry-After`. -/
theorem c7_retry_after_full_window (o : Options) (hs : Bool) (c : Nat)
    (rt : Option Nat) (T : Int) (hT : 0 < T) (hc : T < (c : Int))
    (hh : o.headers = true) (hhs : hs = false) :
    Effect.setHeader "Retry-After"
        (HVal.jv (JVal.num ((o.windowMs + 999) / 1000)))
      ∈ afterIncr o hs c rt (Except.ok T) ∧
    (0 < o.windowMs → 0 < (o.windowMs + 999) / 1000) ∧
    ∀ hv : HVal,
      Effect.setHeader "Retry-After" hv ∈ afterIncr o hs c rt (Except.ok T) →
        hv = HVal.jv (JVal.num ((o.windowMs + 999) / 1000)) := by
  simp only [afterIncr]
  have hcond : ((truthy (JVal.num T) && jgt c (JVal.num T)) &&
      (o.headers && !hs)) = true := by
    subst hhs
    simp [truthy, jgt, hh]
    omega
  refine ⟨(mem_thenBody_retryAfter o hs c rt (JVal.num T) _).mpr ⟨hcond, rfl⟩,
    ?_, ?_⟩
  · intro hw
    omega
  · intro hv hmem
    exact ((mem_thenBody_retryAfter o hs c rt (JVal.num T) hv).mp hmem).2

theorem c7_retry_after_full_window_witness :
    Effect.setHeader "Retry-After"
        (HVal.jv (JVal.num ((oDflt.windowMs + 999) / 1000)))
      ∈ afterIncr oDflt false 6 none (Except.ok 5) :=
  (c7_retry_after_full_window oDflt false 6 none 5 (by decide) (by decide)
    rfl rfl).1

/-- C9 counterexample: a key generator that throws synchronously.  The
exception escapes the middleware body — `next(err)` is never called —
so the failure is not propagated through the host continuation as the
claim states (though no increment happens either). -/
theorem c9_counterexample_sync_throw :
    rateLimitTrace oDflt false KeyOutcome.syncThrow IncrOutcome.err false
        (Except.ok 5) = [Effect.throwOut] ∧
    Effect.nextErr ∉
      rateLimitTrace oDflt false KeyOutcome.syncThrow IncrOutcome.err false
        (Except.ok 5) := by
  decide

/-- C9 amended: a rejected deferred key value reaches the final
`.catch(err => next(err))`, producing exactly a `next(err)` trace; a
synchronous throw from the key generator instead escapes the middleware
as an uncaught exception.  In both cases no store increment is issued for
any key. -/
theorem c9_key_failure_no_increment (o : Options) (io : IncrOutcome)
    (hs : Bool) (mo : Except Unit Int) :
    rateLimitTrace o false KeyOutcome.asyncErr io hs mo = [Effect.nextErr] ∧
    rateLimitTrace o false KeyOutcome.syncThrow io hs mo = [Effect.throwOut] ∧
    (∀ k : String,
      Effect.incr k ∉ rateLimitTrace o false KeyOutcome.asyncErr io hs mo) ∧
    (∀ k : String,
      Effect.incr k ∉ rateLimitTrace o false KeyOutcome.syncThrow io hs mo) := by
  refine ⟨rfl, rfl, ?_, ?_⟩ <;> intro k hk <;> simp [rateLimitTrace] at hk
